import Mathlib

/-!
Verification of the `afero-s3` S3-backed filesystem layer.

The Go sources are embedded shallowly: strings are `List Char`, machine
integers are `Int`/`Nat`, the S3 collaborator's responses are passed in as
explicit oracle arguments, and each operation additionally returns the list
of storage calls it issued.
-/

namespace AferoS3

/-- Paths and keys are modelled as lists of characters. -/
abbrev Str := List Char

/-- `PathSeparator` from `s3_fileinfo.go`: always a forward slash. -/
def pathSeparator : Str := ['/']

/-! ## `path.go`: pure path helpers -/

/-- `hasTrailingSlash`: `len(s) > 0 && s[len(s)-1] == '/'`. -/
def hasTrailingSlash (s : Str) : Bool :=
  s.getLast? == some '/'

/-- `trimLeadingSlash`: drops one leading `'/'` if present. -/
def trimLeadingSlash (s : Str) : Str :=
  match s with
  | '/' :: t => t
  | s => s

/-- `trimTrailingSlash`: repeatedly drops the final character while it is `'/'`. -/
def trimTrailingSlash (s : Str) : Str :=
  (s.reverse.dropWhile (fun c => c = '/')).reverse

/-- `depth`: number of `'/'` characters in the string. -/
def depth (s : Str) : Nat :=
  s.count '/'

/-! ## Go standard library `path` package (used by the source) -/

/-- Go `path.Split`: splits after the final slash; the directory part keeps
the trailing slash, and is empty when there is no slash. -/
def pathSplit (s : Str) : Str × Str :=
  ((s.reverse.dropWhile (fun c => c ≠ '/')).reverse,
   (s.reverse.takeWhile (fun c => c ≠ '/')).reverse)

/-- The backtracking step of Go `path.Clean` for a `..` element: starting from
the reversed output buffer with its last character already dropped (`last`),
keep dropping while the length exceeds `dotdot` and the character just
dropped is not a slash. -/
def cleanBacktrack (dotdot : Nat) : Char → Str → Str
  | _, [] => []
  | last, c :: t =>
    if dotdot < t.length + 1 && last != '/' then cleanBacktrack dotdot c t
    else c :: t

/-- Main loop of Go `path.Clean` over the remaining input.  `out` is the
output buffer in reverse order; `dotdot` is the limit index below which `..`
may not backtrack.  The `fuel` argument only makes the recursion structural:
every step strictly shortens the input, so `fuel = input.length` at the top
level never runs out. -/
def cleanLoop (rooted : Bool) : Nat → Str → Str → Nat → Str
  | _, [], out, _ => out
  | 0, _, out, _ => out
  | fuel + 1, c :: rest, out, dotdot =>
    if c = '/' then
      -- empty path element
      cleanLoop rooted fuel rest out dotdot
    else if c = '.' && (rest = [] || rest.head? == some '/') then
      -- `.` element
      cleanLoop rooted fuel rest out dotdot
    else if c = '.' && rest.head? == some '.' &&
        (rest.tail = [] || rest.tail.head? == some '/') then
      -- `..` element
      if dotdot < out.length then
        cleanLoop rooted fuel rest.tail (match out with
          | [] => []
          | d :: t => cleanBacktrack dotdot d t) dotdot
      else if !rooted then
        let out' := if out.length > 0 then '.' :: '.' :: '/' :: out else ['.', '.']
        cleanLoop rooted fuel rest.tail out' out'.length
      else
        cleanLoop rooted fuel rest.tail out dotdot
    else
      -- real path element: add slash if needed, then copy the element
      let out' := if (rooted && out.length ≠ 1) || (!rooted && out.length ≠ 0)
        then '/' :: out else out
      cleanLoop rooted fuel (rest.dropWhile (fun d => d ≠ '/'))
        ((rest.takeWhile (fun d => d ≠ '/')).reverse ++ c :: out') dotdot

/-- Go `path.Clean`: lexical normalization of a slash-separated path. -/
def pathClean (p : Str) : Str :=
  if p = [] then ['.']
  else
    let rooted := p.head? == some '/'
    let out :=
      if rooted then cleanLoop true p.tail.length p.tail ['/'] 1
      else cleanLoop false p.length p [] 0
    if out = [] then ['.'] else out.reverse

/-- Go `path.Dir`: the cleaned directory component of `path.Split`. -/
def pathDir (p : Str) : Str :=
  pathClean (pathSplit p).1

/-- Scanning loop of Go `path.Ext` over the reversed path. -/
def pathExtLoop : Str → Str → Str
  | [], _ => []
  | c :: t, acc =>
    if c = '/' then []
    else if c = '.' then c :: acc
    else pathExtLoop t (c :: acc)

/-- Go `path.Ext`: the suffix from the final dot in the final element. -/
def pathExt (p : Str) : Str :=
  pathExtLoop p.reverse []

/-! ## `s3_fileinfo.go`: FileInfo -/

/-- `FileInfo` implements `os.FileInfo` for a file in S3.  `modTime` models
`time.Time` as an integer instant (`0` is the zero time). -/
structure FileInfo where
  parent : Str
  name : Str
  directory : Bool
  sizeInBytes : Int
  modTime : Int
  dirDepth : Nat
  deriving Repr, DecidableEq

/-- `NewFileInfo` creates file info. -/
def NewFileInfo (name : Str) (sizeInBytes : Int) (modTime : Int) : FileInfo :=
  let pf := pathSplit (trimTrailingSlash name)
  { parent := pf.1
    name := pf.2
    directory := false
    sizeInBytes := sizeInBytes
    modTime := modTime
    dirDepth := depth pf.1 }

/-- `NewDirectoryInfo` creates directory info (size and time are Go zero values). -/
def NewDirectoryInfo (name : Str) : FileInfo :=
  let pf := pathSplit (trimTrailingSlash name)
  { parent := pf.1
    name := pf.2
    directory := true
    sizeInBytes := 0
    modTime := 0
    dirDepth := depth pf.1 }

/-- `FileInfo.Path`: the full path of the file within the S3 bucket. -/
def FileInfo.path (fi : FileInfo) : Str :=
  fi.parent ++ fi.name

example : pathClean "abc/def/".data = "abc/def".data := by decide
example : pathClean "a/b/..".data = "a".data := by decide
example : pathClean "/../a//b/./c".data = "/a/b/c".data := by decide
example : pathClean "".data = ".".data := by decide
example : pathClean "..".data = "..".data := by decide
example : pathClean "a/../..".data = "..".data := by decide
example : pathExt "dir/a.txt".data = ".txt".data := by decide
example : pathSplit "a/b/c".data = ("a/b/".data, "c".data) := by decide

/-! ## Lemmas about `pathSplit` -/

theorem dropWhile_head_false {α : Type} {p : α → Bool} :
    ∀ (l : List α) (c : α) (t : List α), l.dropWhile p = c :: t → p c = false := by
  intro l
  induction l with
  | nil => intro c t h; simp [List.dropWhile] at h
  | cons a l ih =>
    intro c t h
    by_cases hp : p a
    · exact ih c t (by simpa [List.dropWhile, hp] using h)
    · rw [List.dropWhile_cons_of_neg hp] at h
      cases h
      simpa using hp

theorem mem_takeWhile_true {α : Type} {p : α → Bool} :
    ∀ (l : List α) (a : α), a ∈ l.takeWhile p → p a = true := by
  intro l
  induction l with
  | nil => intro a h; simp [List.takeWhile] at h
  | cons b l ih =>
    intro a h
    by_cases hp : p b
    · rw [List.takeWhile_cons_of_pos hp] at h
      rcases List.mem_cons.1 h with h | h
      · exact h ▸ hp
      · exact ih a h
    · rw [List.takeWhile_cons_of_neg hp] at h
      simp at h

theorem pathSplit_parent_slash_or_empty (s : Str) :
    (pathSplit s).1 = [] ∨ (pathSplit s).1.getLast? = some '/' := by
  unfold pathSplit
  cases h : s.reverse.dropWhile (fun c => c ≠ '/') with
  | nil => left; simp [h]
  | cons c t =>
    right
    have hc := dropWhile_head_false _ _ _ h
    have hc' : c = '/' := by simpa using hc
    simp [h, List.getLast?_reverse, hc']

theorem pathSplit_name_no_slash (s : Str) : '/' ∉ (pathSplit s).2 := by
  unfold pathSplit
  intro hmem
  have : '/' ∈ s.reverse.takeWhile (fun c => c ≠ '/') := by
    simpa [List.mem_reverse] using hmem
  have := mem_takeWhile_true _ _ this
  simp at this

theorem pathSplit_append (s : Str) : (pathSplit s).1 ++ (pathSplit s).2 = s := by
  unfold pathSplit
  have h := List.takeWhile_append_dropWhile (p := fun c : Char => c ≠ '/') (l := s.reverse)
  calc (s.reverse.dropWhile (fun c => c ≠ '/')).reverse ++
        (s.reverse.takeWhile (fun c => c ≠ '/')).reverse
      = (s.reverse.takeWhile (fun c => c ≠ '/') ++
          s.reverse.dropWhile (fun c => c ≠ '/')).reverse := by
        rw [List.reverse_append]
    _ = s := by rw [h, List.reverse_reverse]

/-! ## The storage collaborator's boundary

Responses from the S3 client are passed to each operation as explicit
arguments; each operation also returns the list of S3 calls it issued. -/

/-- Opaque transport/storage-layer error (network, auth, throttling, ...). -/
abbrev StorageErr := Nat

/-- One S3 object in a `ListObjectsV2` page. -/
structure ObjInfo where
  key : Str
  size : Int
  lastModified : Int
  deriving Repr, DecidableEq

/-- The fields of `s3.ListObjectsV2Output` the source reads. -/
structure ListV2Output where
  commonPrefixes : List Str
  contents : List ObjInfo
  nextContinuationToken : Option Str
  isTruncated : Bool
  keyCount : Int
  deriving Repr, DecidableEq

/-- The error shapes `Stat` distinguishes: an `awserr.RequestFailure` (which
also implements `awserr.Error` and so carries a code), a plain
`awserr.Error`, or any other error. -/
inductive HeadErr where
  | reqFailure (statusCode : Nat) (code : Str)
  | awsError (code : Str)
  | other (id : Nat)
  deriving Repr, DecidableEq

/-- Outcome of `HeadObjectWithContext`. -/
inductive HeadResult where
  | ok (contentLength : Int) (lastModified : Int)
  | err (e : HeadErr)
  deriving Repr, DecidableEq

/-- A storage call issued by the layer. -/
inductive Call where
  | head (bucket key : Str)
  | listV2 (bucket pfx : Str) (maxKeys : Int) (delimiter : Option Str)
      (continuationToken : Option Str)
  | getObject (bucket key : Str)
  | putObject (bucket key : Str) (body : List Nat) (contentType : Option Str)
  | copyObject (bucket copySource key : Str)
  | deleteObject (bucket key : Str)
  | closeBody
  deriving Repr, DecidableEq

/-- `s3.ErrCodeNoSuchKey`. -/
def errCodeNoSuchKey : Str := "NoSuchKey".data

/-- The code carried by the error, when it implements `awserr.Error`. -/
def HeadErr.awsCode : HeadErr → Option Str
  | .reqFailure _ c => some c
  | .awsError c => some c
  | .other _ => none

/-- The two "not found" shapes `Stat` falls back to a listing for: a 404
`RequestFailure`, or an `awserr.Error` whose code is `NoSuchKey`. -/
def isNotFoundShape (e : HeadErr) : Bool :=
  (match e with
    | .reqFailure st _ => st == 404
    | _ => false) ||
  e.awsCode == some errCodeNoSuchKey

/-- Cause stored inside the `*os.PathError` that `Stat` returns. -/
inductive PathErrCause where
  | notExist
  | headErr (e : HeadErr)
  | listErr (e : StorageErr)
  deriving Repr, DecidableEq

/-- Result of `Fs.Stat`: either a `FileInfo` or an `*os.PathError` with
`Op = "stat"`. -/
inductive StatRes where
  | info (fi : FileInfo)
  | pathError (path : Str) (cause : PathErrCause)
  deriving Repr, DecidableEq

/-! ## `s3_fs.go`: Stat -/

/-- `Fs.statDirectory`: one-key prefix listing under the cleaned path.
`listResp` is the collaborator's response to that listing. -/
def statDirectory (bucket name : Str)
    (listResp : Except StorageErr ListV2Output) : StatRes × List Call :=
  let nameClean := pathClean name
  let call := Call.listV2 bucket (trimLeadingSlash nameClean) 1 none none
  match listResp with
  | .error e => (.pathError name (.listErr e), [call])
  | .ok out =>
    if out.keyCount = 0 && name != [] then (.pathError name .notExist, [call])
    else (.info (NewDirectoryInfo name), [call])

/-- `Fs.Stat`: HEAD on the cleaned key, with the not-found fallback to
`statDirectory`.  `headResp` answers the HEAD; `listResp` answers the
listing should the fallback run. -/
def stat (bucket name : Str) (headResp : HeadResult)
    (listResp : Except StorageErr ListV2Output) : StatRes × List Call :=
  let nameClean := pathClean name
  let headCall := Call.head bucket nameClean
  match headResp with
  | .err e =>
    if (match e with | .reqFailure st _ => st == 404 | _ => false) then
      let (r, cs) := statDirectory bucket name listResp
      (r, headCall :: cs)
    else if e.awsCode == some errCodeNoSuchKey then
      let (r, cs) := statDirectory bucket name listResp
      (r, headCall :: cs)
    else
      (.pathError name (.headErr e), [headCall])
  | .ok contentLength lastModified =>
    if hasTrailingSlash name then
      -- user asked for a directory, but this is a file
      (.pathError name .notExist, [headCall])
    else
      (.info (NewFileInfo name contentLength lastModified), [headCall])

/-- C9: every `FileInfo` built by `NewFileInfo` / `NewDirectoryInfo` has a
parent that is empty or ends with the separator, a name free of the
separator, and `Path()` equal to `parent ++ name` (which reassembles the
trailing-slash-trimmed input). -/
theorem fileInfo_constructor_invariants (name : Str) (sz lm : Int) :
    ((NewFileInfo name sz lm).parent = [] ∨
      (NewFileInfo name sz lm).parent.getLast? = some '/') ∧
    '/' ∉ (NewFileInfo name sz lm).name ∧
    (NewFileInfo name sz lm).path =
      (NewFileInfo name sz lm).parent ++ (NewFileInfo name sz lm).name ∧
    (NewFileInfo name sz lm).path = trimTrailingSlash name ∧
    ((NewDirectoryInfo name).parent = [] ∨
      (NewDirectoryInfo name).parent.getLast? = some '/') ∧
    '/' ∉ (NewDirectoryInfo name).name ∧
    (NewDirectoryInfo name).path =
      (NewDirectoryInfo name).parent ++ (NewDirectoryInfo name).name ∧
    (NewDirectoryInfo name).path = trimTrailingSlash name := by
  refine ⟨?_, ?_, rfl, ?_, ?_, ?_, rfl, ?_⟩
  · exact pathSplit_parent_slash_or_empty (trimTrailingSlash name)
  · exact pathSplit_name_no_slash (trimTrailingSlash name)
  · exact pathSplit_append (trimTrailingSlash name)
  · exact pathSplit_parent_slash_or_empty (trimTrailingSlash name)
  · exact pathSplit_name_no_slash (trimTrailingSlash name)
  · exact pathSplit_append (trimTrailingSlash name)

/-- C1: when HEAD fails with either not-found shape, `Stat` falls back to a
one-key prefix listing under the normalized path; if the listing succeeds it
reports a directory exactly when at least one key matched or the name is
empty, and a not-exist `PathError` otherwise. -/
theorem stat_notFound_falls_back_to_listing (bucket name : Str) (e : HeadErr)
    (listResp : Except StorageErr ListV2Output)
    (h : isNotFoundShape e = true) :
    stat bucket name (.err e) listResp =
      ((statDirectory bucket name listResp).1,
        Call.head bucket (pathClean name) :: (statDirectory bucket name listResp).2) ∧
    (statDirectory bucket name listResp).2 =
      [Call.listV2 bucket (trimLeadingSlash (pathClean name)) 1 none none] ∧
    (∀ out : ListV2Output, listResp = .ok out →
      (stat bucket name (.err e) listResp).1 =
        if out.keyCount ≠ 0 ∨ name = [] then .info (NewDirectoryInfo name)
        else .pathError name .notExist) ∧
    (NewDirectoryInfo name).directory = true := by
  have hstat : stat bucket name (.err e) listResp =
      ((statDirectory bucket name listResp).1,
        Call.head bucket (pathClean name) :: (statDirectory bucket name listResp).2) := by
    unfold stat
    unfold isNotFoundShape at h
    rcases e with ⟨st, c⟩ | c | i
    · simp only [Bool.or_eq_true] at h
      by_cases hst : (st == 404) = true
      · simp [hst]
      · rcases h with h4 | hns
        · exact absurd h4 hst
        · simp [hst, hns]
    · simp only [Bool.or_eq_true] at h
      rcases h with h4 | hns
      · simp at h4
      · simp [hns]
    · simp [HeadErr.awsCode] at h
  refine ⟨hstat, ?_, ?_, rfl⟩
  · unfold statDirectory
    rcases listResp with e' | out
    · rfl
    · dsimp only
      split <;> rfl
  · intro out hout
    subst hout
    rw [hstat]
    unfold statDirectory
    by_cases h1 : out.keyCount = 0
    · by_cases h2 : name = []
      · simp [h1, h2]
      · simp [h1, h2]
    · simp [h1]

/-- Witness for C1 at a concrete 404 failure with one matching key. -/
theorem stat_notFound_falls_back_to_listing_witness :
    (stat "b".data "a".data (.err (.reqFailure 404 []))
        (.ok ⟨[], [], none, false, 1⟩)).1 =
      .info (NewDirectoryInfo "a".data) := by
  have h := stat_notFound_falls_back_to_listing "b".data "a".data
    (.reqFailure 404 []) (.ok ⟨[], [], none, false, 1⟩) (by decide)
  rw [(h.2.2.1 ⟨[], [], none, false, 1⟩ rfl : _)]
  decide

/-- C2: when HEAD succeeds, a trailing-separator name yields a not-exist
`PathError` (a file sits where a directory-shaped name was requested);
otherwise `Stat` returns a file `FileInfo` carrying the HEAD's content
length and last-modified time. -/
theorem stat_head_ok (bucket name : Str) (cl lm : Int)
    (listResp : Except StorageErr ListV2Output) :
    stat bucket name (.ok cl lm) listResp =
      (if hasTrailingSlash name then .pathError name .notExist
       else .info (NewFileInfo name cl lm),
       [Call.head bucket (pathClean name)]) ∧
    (NewFileInfo name cl lm).directory = false ∧
    (NewFileInfo name cl lm).sizeInBytes = cl ∧
    (NewFileInfo name cl lm).modTime = lm := by
  refine ⟨?_, rfl, rfl, rfl⟩
  unfold stat
  by_cases h : hasTrailingSlash name <;> simp [h]

/-! ## `lister.go`: paginated listing -/

/-- The configuration of a `Lister` that its algorithm reads. -/
structure Lister where
  bucket : Str
  name : Str
  delimiter : Option Str
  deriving Repr, DecidableEq

/-- `collection.StringSet.Add`, refined to a list keeping insertion order
(the Go set iterates in unspecified map order). -/
def setAdd (s : List Str) (x : Str) : List Str :=
  if x ∈ s then s else s ++ [x]

/-- The ancestor-synthesis loop of `doListObjects`: walk `parent` upwards
while it is longer than the lister's name, adding each level to `dirs`.
`fuel` only bounds the recursion; each Go iteration strictly shortens
`parent`, so `fuel = parent.length` at the call site never runs out. -/
def synthAncestors (nameLen : Nat) : Nat → Str → List Str → List Str
  | 0, _, dirs => dirs
  | fuel + 1, parent, dirs =>
    if nameLen < parent.length then
      synthAncestors nameLen fuel (trimTrailingSlash (pathDir parent))
        (setAdd dirs parent)
    else dirs

/-- The body of `doListObjects`'s loop over `output.Contents`: a key ending
in the separator is skipped in files-only mode and becomes a directory entry
(plus synthesized ancestors) otherwise; any other key becomes a file entry. -/
def listStep (l : Lister) (filesOnly : Bool)
    (acc : List FileInfo × List Str) (obj : ObjInfo) :
    List FileInfo × List Str :=
  let p := pathSeparator ++ obj.key
  if hasTrailingSlash obj.key then
    -- S3 includes `<name>/` in the Contents listing for `<name>`
    if filesOnly then acc
    else
      let dir := NewDirectoryInfo p
      let parent := trimTrailingSlash dir.parent
      (acc.1 ++ [dir], synthAncestors l.name.length parent.length parent acc.2)
  else
    (acc.1 ++ [NewFileInfo p obj.size obj.lastModified], acc.2)

/-- `Lister.doListObjects`: one page request.  `resp` is the collaborator's
answer to that request. -/
def doListObjects (l : Lister) (n : Int) (filesOnly : Bool)
    (continuationToken : Option Str)
    (resp : Except StorageErr ListV2Output) :
    Except StorageErr (List FileInfo × Option Str × Bool) × List Call :=
  let pfx := trimLeadingSlash l.name ++ pathSeparator
  let call := Call.listV2 l.bucket pfx n l.delimiter continuationToken
  match resp with
  | .error e => (.error e, [call])
  | .ok out =>
    let fis0 := out.commonPrefixes.map
      (fun p => NewDirectoryInfo (pathSeparator ++ p))
    let fd := out.contents.foldl (listStep l filesOnly) (fis0, [])
    (.ok (fd.1 ++ fd.2.map NewDirectoryInfo,
        out.nextContinuationToken, out.isTruncated), [call])

/-- Upper limit of objects per `ListObjectsV2` request. -/
def maxObjectsPerRequest : Int := 1000

/-- `math.MaxInt64`. -/
def maxInt64 : Int := 9223372036854775807

/-- Outcome of `Lister.ListObjects`.  `err e` models Go's `return nil, err`:
no entries reach the caller.  `noMoreResponses` is a model artifact: the
loop wanted a further page but the response oracle was exhausted. -/
inductive ListOutcome where
  | ok (fis : List FileInfo)
  | err (e : StorageErr)
  | noMoreResponses
  deriving Repr, DecidableEq

/-- The `for hasMore` pagination loop of `Lister.ListObjects`, consuming one
oracle response per page request. -/
def listLoop (l : Lister) (filesOnly : Bool) :
    List (Except StorageErr ListV2Output) → Int → Option Str →
    List FileInfo → ListOutcome × List Call
  | [], _, _, _ => (.noMoreResponses, [])
  | r :: rest, mx, token, acc =>
    let n := if maxObjectsPerRequest > mx then mx else maxObjectsPerRequest
    match doListObjects l n filesOnly token r with
    | (.error e, cs) => (.err e, cs)
    | (.ok (infos, token', hasMore), cs) =>
      let acc' := acc ++ infos
      let mx' := mx - infos.length
      if hasMore then
        let next := listLoop l filesOnly rest mx' token' acc'
        (next.1, cs ++ next.2)
      else
        (.ok acc', cs)

/-- `Lister.ListObjects`: non-positive `max` becomes `math.MaxInt64`. -/
def listObjects (l : Lister) (mx : Int) (filesOnly : Bool)
    (resps : List (Except StorageErr ListV2Output)) : ListOutcome × List Call :=
  listLoop l filesOnly resps (if mx ≤ 0 then maxInt64 else mx) none []

/-- Stated from the amended C3 claim: how many page requests the loop makes
on a response sequence — every page up to and including the first failing or
non-truncated one, regardless of the running total. -/
def pagesRequested : List (Except StorageErr ListV2Output) → Nat
  | [] => 0
  | .error _ :: _ => 1
  | .ok out :: rest => if out.isTruncated then 1 + pagesRequested rest else 1

/-- C3 counterexample: with `max = 1`, the first page already yields one
entry and reports truncated, yet the loop issues a second page request
(with `MaxKeys = 0`) instead of stopping at the accumulated maximum. -/
theorem listObjects_requests_after_max_reached :
    (listObjects ⟨"b".data, "dir".data, some pathSeparator⟩ 1 true
        [.ok ⟨[], [⟨"dir/a".data, 3, 5⟩], some "t".data, true, 1⟩,
         .ok ⟨[], [], none, false, 0⟩]).2 =
      [Call.listV2 "b".data "dir/".data 1 (some pathSeparator) none,
       Call.listV2 "b".data "dir/".data 0 (some pathSeparator) (some "t".data)] ∧
    (doListObjects ⟨"b".data, "dir".data, some pathSeparator⟩ 1 true none
        (.ok ⟨[], [⟨"dir/a".data, 3, 5⟩], some "t".data, true, 1⟩)).1 =
      .ok ([NewFileInfo "/dir/a".data 3 5], some "t".data, true) := by
  constructor <;> rfl

/-- C3 amended: for every `max`, the loop issues exactly the pages up to and
including the first failing or non-truncated one — pagination stops on the
truncated flag (or an error, or oracle exhaustion) only, never because the
running total reached `max`. -/
theorem listLoop_requests_follow_truncation (l : Lister) (filesOnly : Bool) :
    ∀ (resps : List (Except StorageErr ListV2Output)) (mx : Int)
      (token : Option Str) (acc : List FileInfo),
    (listLoop l filesOnly resps mx token acc).2.length = pagesRequested resps := by
  intro resps
  induction resps with
  | nil => intro mx token acc; rfl
  | cons r rest ih =>
    intro mx token acc
    rcases r with e | out
    · rfl
    · by_cases ht : out.isTruncated = true
      · simp only [listLoop, doListObjects, pagesRequested, ht, if_true,
          List.length_append, List.length_cons, List.length_nil]
        rw [ih]
      · simp only [Bool.not_eq_true] at ht
        simp [listLoop, doListObjects, pagesRequested, ht]

/-- C4: a failing page aborts the whole listing — after any number of
successful truncated pages, an error response makes `ListObjects` return the
storage error unchanged with no entries (`return nil, err`). -/
theorem listLoop_error_discards_partial (l : Lister) (filesOnly : Bool)
    (e : StorageErr) (junk : List (Except StorageErr ListV2Output)) :
    ∀ (good : List ListV2Output), (∀ out ∈ good, out.isTruncated = true) →
    ∀ (mx : Int) (token : Option Str) (acc : List FileInfo),
    (listLoop l filesOnly (good.map .ok ++ .error e :: junk) mx token acc).1 =
      .err e := by
  intro good
  induction good with
  | nil => intro _ mx token acc; rfl
  | cons out good ih =>
    intro hall mx token acc
    have ht : out.isTruncated = true := hall out (List.mem_cons_self _ _)
    have ih' := ih (fun o ho => hall o (List.mem_cons_of_mem _ ho))
    simp only [List.map_cons, List.cons_append, listLoop, doListObjects, ht,
      if_true, List.append_eq]
    exact ih' _ _ _

/-- Witness for C4: one successful truncated page, then an error. -/
theorem listLoop_error_discards_partial_witness :
    (listLoop ⟨"b".data, "dir".data, some pathSeparator⟩ true
        ([(⟨[], [], some "t".data, true, 0⟩ : ListV2Output)].map .ok ++
          .error 7 :: []) 5 none []).1 = .err 7 :=
  listLoop_error_discards_partial ⟨"b".data, "dir".data, some pathSeparator⟩
    true 7 [] [⟨[], [], some "t".data, true, 0⟩] (by decide) 5 none []

/-- The `Contents` fold in files-only mode: trailing-slash keys are dropped,
every other key is appended as a file entry, and the synthesized-directory
set is untouched. -/
theorem foldl_listStep_filesOnly (l : Lister) :
    ∀ (contents : List ObjInfo) (init : List FileInfo) (d : List Str),
    contents.foldl (listStep l true) (init, d) =
      (init ++ (contents.filter (fun o => !hasTrailingSlash o.key)).map
        (fun o => NewFileInfo (pathSeparator ++ o.key) o.size o.lastModified),
       d) := by
  intro contents
  induction contents with
  | nil => intro init d; simp
  | cons o rest ih =>
    intro init d
    by_cases hk : hasTrailingSlash o.key = true
    · simp [listStep, hk, ih]
    · simp only [Bool.not_eq_true] at hk
      simp [listStep, hk, ih]

/-- C5 counterexample: the key `dir/sub/` ends with the separator but is not
the placeholder key `dir/` of the listed prefix; the code still produces no
entry for it (the claim required a file entry for any key other than the
placeholder). -/
theorem doListObjects_skips_non_placeholder :
    (doListObjects ⟨"b".data, "dir".data, some pathSeparator⟩ 1000 true none
        (.ok ⟨[], [⟨"dir/sub/".data, 0, 0⟩], none, false, 1⟩)).1 =
      .ok ([], none, false) ∧
    "dir/sub/".data ≠ trimLeadingSlash "dir".data ++ pathSeparator ∧
    hasTrailingSlash "dir/sub/".data = true := by
  refine ⟨rfl, by decide, rfl⟩

/-- C5 amended: in files-only mode an object key is skipped exactly when it
ends with the separator (whether or not it equals the placeholder for the
prefix); every other key becomes a file entry and every common prefix
becomes a directory entry. -/
theorem doListObjects_filesOnly_entries (l : Lister) (n : Int)
    (token : Option Str) (out : ListV2Output) :
    (doListObjects l n true token (.ok out)).1 =
      .ok (out.commonPrefixes.map (fun p => NewDirectoryInfo (pathSeparator ++ p)) ++
          (out.contents.filter (fun o => !hasTrailingSlash o.key)).map
            (fun o => NewFileInfo (pathSeparator ++ o.key) o.size o.lastModified),
        out.nextContinuationToken, out.isTruncated) := by
  simp [doListObjects, foldl_listStep_filesOnly]

/-! ## `s3_fs.go`: the Fs configuration holder

Go maps are reference values: copying an `Fs` struct copies the map header
but shares the underlying table.  The model therefore keeps MIME tables in a
heap indexed by references, and an `Fs` holds a reference. -/

/-- Association-list update (Go `m[k] = v`). -/
def assocSet (m : List (Str × Str)) (k v : Str) : List (Str × Str) :=
  match m with
  | [] => [(k, v)]
  | (k', v') :: rest =>
    if k' = k then (k, v) :: rest else (k', v') :: assocSet rest k v

/-- Association-list lookup (Go `typ, defined := m[k]`). -/
def assocGet (m : List (Str × Str)) (k : Str) : Option Str :=
  match m with
  | [] => none
  | (k', v') :: rest => if k' = k then some v' else assocGet rest k

/-- The heap of live Go maps from extension to MIME type. -/
structure Heap where
  maps : Nat → List (Str × Str)
  next : Nat

/-- Write one map cell of the heap. -/
def Heap.store (h : Heap) (r : Nat) (m : List (Str × Str)) : Heap :=
  { h with maps := fun i => if i = r then m else h.maps i }

/-- `Fs`: bucket, a reference to its `mimeTypes` map, and its context
(modelled by an identifier). -/
structure Fs where
  bucket : Str
  mimeTypesRef : Nat
  ctx : Nat
  deriving Repr, DecidableEq

/-- `NewFs`: fresh Fs with an empty `mimeTypes` map and background context. -/
def newFs (bucket : Str) (h : Heap) : Fs × Heap :=
  ({ bucket := bucket, mimeTypesRef := h.next, ctx := 0 },
   { maps := fun i => if i = h.next then [] else h.maps i, next := h.next + 1 })

/-- `Fs.WithContext`: value receiver — sets the context on a copy. -/
def withContext (fs : Fs) (ctx : Nat) : Fs :=
  { fs with ctx := ctx }

/-- `Fs.AddMimeTypes`: value receiver, but every `fs.mimeTypes[k] = v` write
goes through the copied map header to the shared table, i.e. to the heap
cell `fs.mimeTypesRef`.  A key's single leading dot is stripped.  (Go
iterates the argument map in unspecified order; the model takes a list.) -/
def addMimeTypes (fs : Fs) (mimeTypes : List (Str × Str)) (h : Heap) :
    Fs × Heap :=
  (fs,
   mimeTypes.foldl
     (fun h kv =>
       let k := if kv.1.head? == some '.' then kv.1.tail else kv.1
       h.store fs.mimeTypesRef (assocSet (h.maps fs.mimeTypesRef) k kv.2))
     h)

/-- `File.lookupContentType` (`s3_file.go`): extension lookup against the
Fs's MIME table. -/
def lookupContentType (name : Str) (fs : Fs) (h : Heap) : Option Str :=
  let ext := pathExt name
  if 1 < ext.length then
    let ext := if ext.head? == some '.' then ext.tail else ext
    assocGet (h.maps fs.mimeTypesRef) ext
  else none

/-- The empty heap. -/
def emptyHeap : Heap := { maps := fun _ => [], next := 0 }

/-- C6 (code bug demonstration): `WithContext` leaves the original intact,
but `AddMimeTypes` writes through the shared map table, so after the
derivation a file written through the *original* Fs sees the new
content-type lookups — its observable MIME configuration changed. -/
theorem addMimeTypes_mutates_original :
    (withContext ((newFs "bucket".data emptyHeap).1) 7).ctx = 7 ∧
    (withContext ((newFs "bucket".data emptyHeap).1) 7).mimeTypesRef =
      ((newFs "bucket".data emptyHeap).1).mimeTypesRef ∧
    lookupContentType "a.txt".data ((newFs "bucket".data emptyHeap).1)
      ((newFs "bucket".data emptyHeap).2) = none ∧
    (addMimeTypes ((newFs "bucket".data emptyHeap).1)
        [(".txt".data, "text/plain".data)]
        ((newFs "bucket".data emptyHeap).2)).1 =
      ((newFs "bucket".data emptyHeap).1) ∧
    lookupContentType "a.txt".data ((newFs "bucket".data emptyHeap).1)
      ((addMimeTypes ((newFs "bucket".data emptyHeap).1)
          [(".txt".data, "text/plain".data)]
          ((newFs "bucket".data emptyHeap).2)).2) =
      some "text/plain".data := by
  refine ⟨rfl, rfl, rfl, rfl, rfl⟩

/-! ## `s3_file.go`: the File handle -/

/-- A GET body stream, as an oracle for the transport's behavior: `reads i`
is the `(n, err)` result of the i-th `Read` from the stream, `closeErr` is
what closing it returns, `pos` counts the reads already taken. -/
structure RStream where
  closeErr : Option StorageErr
  reads : Nat → Int × Option StorageErr
  pos : Nat

/-- The mutable state of a `File` that `Read`/`Write`/`Close` touch. -/
structure FileState where
  offset : Int := 0
  closed : Bool := false
  readCloser : Option RStream := none
  writeBuf : Option (List Nat) := none

/-- One `Read` from the body stream. -/
def streamRead (s : RStream) : (Int × Option StorageErr) × RStream :=
  (s.reads s.pos, { s with pos := s.pos + 1 })

/-- The `for ; toSkip > 1024; toSkip -= 1024` loop of `skipBytes`; the read
counts are ignored, exactly as in the source.  `fuel` only makes the
recursion structural: `toSkip.toNat` at the call site never runs out. -/
def skipBigLoop : Nat → RStream → Int → Option StorageErr × RStream × Int
  | 0, s, toSkip => (none, s, toSkip)
  | fuel + 1, s, toSkip =>
    if 1024 < toSkip then
      let (r, s') := streamRead s
      match r.2 with
      | some e => (some e, s', toSkip)
      | none => skipBigLoop fuel s' (toSkip - 1024)
    else (none, s, toSkip)

/-- `File.skipBytes`: discard `toSkip` bytes from the open stream. -/
def skipBytes (f : FileState) (toSkip : Int) : Option StorageErr × FileState :=
  match f.readCloser with
  | none => (none, f)
  | some s =>
    let (e1, s1, rem) :=
      if 1024 < toSkip then skipBigLoop toSkip.toNat s toSkip
      else (none, s, toSkip)
    match e1 with
    | some e => (some e, { f with readCloser := some s1 })
    | none =>
      if 0 < rem then
        let (r, s2) := streamRead s1
        (r.2, { f with readCloser := some s2 })
      else (none, { f with readCloser := some s1 })

/-- Result of `File.Read`; reading a closed handle is a Go `panic`. -/
inductive ReadOutcome where
  | rpanic (msg : Str)
  | rret (n : Int) (e : Option StorageErr)

/-- `File.Read`: lazily opens the GET stream (skipping to `offset`), then
pulls from it.  `pLen` is `len(p)`; `getResp` answers the GET. -/
def fileRead (f : FileState) (bucket name : Str) (pLen : Nat)
    (getResp : Except StorageErr RStream) : ReadOutcome × FileState × List Call :=
  if f.closed then (.rpanic "read after close".data, f, [])
  else if pLen = 0 then (.rret 0 none, f, [])
  else
    match f.readCloser with
    | none =>
      match getResp with
      | .error e => (.rret 0 (some e), f, [Call.getObject bucket name])
      | .ok body =>
        let f1 := { f with readCloser := some body }
        match skipBytes f1 f1.offset with
        | (some err, f2) => (.rret 0 (some err), f2, [Call.getObject bucket name])
        | (none, f2) =>
          match f2.readCloser with
          | some s =>
            let (r, s') := streamRead s
            (.rret r.1 r.2,
              { f2 with readCloser := some s', offset := f2.offset + r.1 },
              [Call.getObject bucket name])
          | none =>  -- unreachable: skipBytes keeps the stream open
            (.rret 0 none, f2, [Call.getObject bucket name])
    | some s =>
      let (r, s') := streamRead s
      (.rret r.1 r.2,
        { f with readCloser := some s', offset := f.offset + r.1 }, [])

/-- Result of `File.Write`; writing a closed handle is a Go `panic`. -/
inductive WriteOutcome where
  | wpanic (msg : Str)
  | wret (n : Int) (e : Option StorageErr)

/-- `File.Write`: append to the in-memory buffer, creating it on first use.
No storage call is made; the PUT happens at close time. -/
def fileWrite (f : FileState) (p : List Nat) : WriteOutcome × FileState :=
  if f.closed then (.wpanic "write after close".data, f)
  else
    let buf := f.writeBuf.getD []
    (.wret p.length none, { f with writeBuf := some (buf ++ p) })

/-- Result of `File.Close` / `File.finaliseWrite`. -/
inductive CloseOutcome where
  | cpanic (msg : Str)
  | cret (e : Option StorageErr)

/-- `File.finaliseWrite`: upload the write buffer with one PUT carrying the
looked-up content type (the PUT also carries an MD5 checksum of the buffer,
not modelled).  `putResp` answers the PUT. -/
def finaliseWrite (f : FileState) (bucket name : Str) (fs : Fs) (h : Heap)
    (putResp : Option StorageErr) : CloseOutcome × List Call :=
  if f.closed then (.cpanic "write after close".data, [])
  else if f.offset ≠ 0 then (.cpanic "TODO: non-offset == 0 write".data, [])
  else
    (.cret putResp,
     [Call.putObject bucket name (f.writeBuf.getD [])
        (lookupContentType name fs h)])

/-- `File.Close`: close the read stream if open, flush the write buffer if
present, then mark the handle closed.  A panic from `finaliseWrite`
propagates, leaving the state updates after it unexecuted. -/
def fileClose (f : FileState) (bucket name : Str) (fs : Fs) (h : Heap)
    (putResp : Option StorageErr) : CloseOutcome × FileState × List Call :=
  let rc :=
    match f.readCloser with
    | some s => (s.closeErr, { f with readCloser := none }, [Call.closeBody])
    | none => ((none : Option StorageErr), f, ([] : List Call))
  let f0 := rc.2.1
  match f0.writeBuf with
  | some _ =>
    match finaliseWrite f0 bucket name fs h putResp with
    | (.cpanic m, cs) => (.cpanic m, f0, rc.2.2 ++ cs)
    | (.cret e, cs) =>
      (.cret e, { f0 with writeBuf := none, closed := true, offset := 0 },
        rc.2.2 ++ cs)
  | none =>
    (.cret rc.1, { f0 with closed := true, offset := 0 }, rc.2.2)

/-! ## `s3_fs.go`: OpenFile and Rename -/

/-- `os.O_APPEND` (Linux value). -/
def oAPPEND : Nat := 1024

/-- `os.O_CREATE` (Linux value). -/
def oCREATE : Nat := 64

/-- The error `OpenFile` returns for append mode. -/
inductive OpenErr where
  | appendDisallowed  -- "S3 is eventually consistent. Appending files will lead to trouble"
  deriving Repr, DecidableEq

/-- Result of `Fs.OpenFile`. -/
inductive OpenOutcome where
  | opanic (msg : Str)
  | oret (e : Option OpenErr)

/-- `Fs.OpenFile`: builds a fresh handle, rejects the append flag, and for
the create flag performs an empty buffered write (no storage call). -/
def openFile (name : Str) (flag : Nat) : OpenOutcome × FileState × List Call :=
  let file : FileState := {}
  if flag &&& oAPPEND ≠ 0 then (.oret (some .appendDisallowed), file, [])
  else if flag &&& oCREATE ≠ 0 then
    -- write some empty content, forcing the file to be created upon Close
    match fileWrite file [] with
    | (.wpanic m, f') => (.opanic m, f', [])
    | (.wret _ _, f') => (.oret none, f', [])
  else (.oret none, file, [])

/-- `Fs.Rename`: same-name is a no-op; otherwise copy to the new key, then
delete the old key; the delete is skipped when the copy fails. -/
def rename (fs : Fs) (oldname newname : Str)
    (copyResp delResp : Option StorageErr) : Option StorageErr × List Call :=
  if oldname = newname then (none, [])
  else
    let copyCall := Call.copyObject fs.bucket (fs.bucket ++ oldname) newname
    match copyResp with
    | some e => (some e, [copyCall])
    | none =>
      let delCall := Call.deleteObject fs.bucket oldname
      (delResp, [copyCall, delCall])

/-- C7: any flag with the append bit set makes `OpenFile` return the
append-disallowed error with zero storage calls, regardless of the target's
existence (no collaborator response is even consulted). -/
theorem openFile_append_rejected (name : Str) (flag : Nat)
    (h : flag &&& oAPPEND ≠ 0) :
    openFile name flag = (.oret (some .appendDisallowed), ({} : FileState), []) := by
  unfold openFile
  simp [h]

/-- Witness for C7 at `flag = O_APPEND`. -/
theorem openFile_append_rejected_witness :
    openFile "a".data oAPPEND =
      (.oret (some .appendDisallowed), ({} : FileState), []) :=
  openFile_append_rejected "a".data oAPPEND (by decide)

/-- C8: `Rename(a, a)` succeeds with zero storage calls; for distinct names
a copy is issued and, only if it succeeds, a delete of the old key. -/
theorem rename_copy_then_delete (fs : Fs) (a oldname newname : Str)
    (copyResp delResp : Option StorageErr) (e : StorageErr)
    (h : oldname ≠ newname) :
    rename fs a a copyResp delResp = (none, []) ∧
    rename fs oldname newname (some e) delResp =
      (some e, [Call.copyObject fs.bucket (fs.bucket ++ oldname) newname]) ∧
    rename fs oldname newname none delResp =
      (delResp, [Call.copyObject fs.bucket (fs.bucket ++ oldname) newname,
        Call.deleteObject fs.bucket oldname]) := by
  refine ⟨by simp [rename], ?_, ?_⟩ <;> simp [rename, h]

/-- Witness for C8 at concrete names. -/
theorem rename_copy_then_delete_witness :
    rename ((newFs "b".data emptyHeap).1) "x".data "x".data (some 3) none =
      (none, []) ∧
    rename ((newFs "b".data emptyHeap).1) "p".data "q".data (some 3) none =
      (some 3, [Call.copyObject "b".data "bp".data "q".data]) ∧
    rename ((newFs "b".data emptyHeap).1) "p".data "q".data none none =
      (none, [Call.copyObject "b".data "bp".data "q".data,
        Call.deleteObject "b".data "p".data]) :=
  rename_copy_then_delete ((newFs "b".data emptyHeap).1) "x".data
    "p".data "q".data (some 3) none 3 (by decide)

/-- After a `Close` that returns (rather than panicking), the handle state
has no read stream, no write buffer, a cleared offset, and the closed flag
set. -/
theorem fileClose_state_after_ret (f : FileState) (bucket name : Str) (fs : Fs)
    (h : Heap) (putResp : Option StorageErr) (e : Option StorageErr)
    (hret : (fileClose f bucket name fs h putResp).1 = .cret e) :
    (fileClose f bucket name fs h putResp).2.1 =
      { offset := 0, closed := true, readCloser := none, writeBuf := none } := by
  rcases f with ⟨off, cl, rc, wb⟩
  rcases rc with _ | s <;> rcases wb with _ | b
  · rfl
  · rcases cl
    · by_cases hoff : off = 0
      · subst hoff; rfl
      · simp [fileClose, finaliseWrite, hoff] at hret
    · simp [fileClose, finaliseWrite] at hret
  · rfl
  · rcases cl
    · by_cases hoff : off = 0
      · subst hoff; rfl
      · simp [fileClose, finaliseWrite, hoff] at hret
    · simp [fileClose, finaliseWrite] at hret

/-- C10: once `Close` has returned once (with or without an error), the
first call cleared the read stream and the write buffer and set the closed
flag, so a second `Close` issues no storage operation (no stream close, no
PUT) and returns nil — and `Read`/`Write` on the closed handle panic rather
than repopulating the stream or buffer. -/
theorem close_twice_noop (f : FileState) (bucket name : Str) (fs : Fs)
    (h : Heap) (putResp putResp' : Option StorageErr) (e : Option StorageErr)
    (pLen : Nat) (getResp : Except StorageErr RStream) (p : List Nat)
    (hret : (fileClose f bucket name fs h putResp).1 = .cret e) :
    (fileClose (fileClose f bucket name fs h putResp).2.1 bucket name fs h
        putResp').1 = .cret none ∧
    (fileClose (fileClose f bucket name fs h putResp).2.1 bucket name fs h
        putResp').2.2 = [] ∧
    (fileRead (fileClose f bucket name fs h putResp).2.1 bucket name pLen
        getResp).1 = .rpanic "read after close".data ∧
    (fileWrite (fileClose f bucket name fs h putResp).2.1 p).1 =
      .wpanic "write after close".data := by
  rw [fileClose_state_after_ret f bucket name fs h putResp e hret]
  exact ⟨rfl, rfl, rfl, rfl⟩

/-- Witness for C10: a handle with a pending write buffer, closed twice. -/
theorem close_twice_noop_witness :
    (fileClose ((fileClose { writeBuf := some [1, 2] }
        "b".data "k".data ((newFs "b".data emptyHeap).1)
        ((newFs "b".data emptyHeap).2) none).2.1)
        "b".data "k".data ((newFs "b".data emptyHeap).1)
        ((newFs "b".data emptyHeap).2) none).2.2 = [] :=
  (close_twice_noop { writeBuf := some [1, 2] } "b".data "k".data
    ((newFs "b".data emptyHeap).1) ((newFs "b".data emptyHeap).2)
    none none none 1 (.error 0) [] rfl).2.1

end AferoS3
